import Mathlib

/-!
Shallow embedding of two neomutt source files and proofs about them:

* `lib/lib_buffer.c` — the growable, null-terminated message buffer
  (`mutt_buffer_new/init/from/add/addstr/addch/printf`).
* `imap/auth_plain.c` — the IMAP SASL PLAIN authentication driver
  (`imap_auth_plain`).

Bytes are modelled as `Nat`, C byte arrays and strings as `List Nat`
(a C string being the bytes before the first NUL), and pointers into a
buffer as offsets.  Side effects of the driver (commands started, socket
writes, user notifications) are collected in an event trace.
-/

namespace NeomuttSpec

/-- The bytes of a C string: everything before the first NUL byte. -/
def cstr (l : List Nat) : List Nat := l.takeWhile (fun b => b != 0)

/-- `mutt_strlen`: length of a C string (0 for NULL, modelled by `[]`). -/
def mutt_strlen (l : List Nat) : Nat := (cstr l).length

/-- `safe_strdup`: a fresh copy of the C string, including its terminator. -/
def safe_strdup (l : List Nat) : List Nat := cstr l ++ [0]

/-- `safe_realloc` to `n` bytes: the first `min(old, n)` bytes are
    preserved; newly acquired bytes are unspecified, modelled as 0. -/
def safe_realloc (l : List Nat) (n : Nat) : List Nat :=
  (l ++ List.replicate (n - l.length) 0).take n

/-- Overwrite the bytes of `l` starting at offset `i` with `s`
    (the model of `memcpy(l + i, s, s.length)`). -/
def storeBytes (l : List Nat) (i : Nat) (s : List Nat) : List Nat :=
  l.take i ++ s ++ l.drop (i + s.length)

/-- `struct Buffer`: `data` is the allocated region, `dsize` the capacity
    field, `dptr` the write cursor as an offset into `data`. -/
structure Buffer where
  data : List Nat
  dsize : Nat
  dptr : Nat
deriving DecidableEq, Repr

/-- `mutt_buffer_init` / `mutt_buffer_new`: zeroed buffer, no allocation. -/
def mutt_buffer_init : Buffer := ⟨[], 0, 0⟩

/-- `mutt_buffer_from(seed)` (for a non-NULL seed): `data = strdup(seed)`,
    `dsize = strlen(seed)`, `dptr = data + dsize`. -/
def mutt_buffer_from (seed : List Nat) : Buffer :=
  ⟨safe_strdup seed, mutt_strlen seed, mutt_strlen seed⟩

/-- The growth step of `mutt_buffer_add`: when `dptr + len + 1` points
    past `data + dsize`, add `128` (or `len + 1` for large writes) to
    `dsize` and reallocate, keeping the cursor offset. -/
def buffer_grow (b : Buffer) (len : Nat) : Buffer :=
  if b.dptr + len + 1 > b.dsize then
    { data := safe_realloc b.data (b.dsize + (if len < 128 then 128 else len + 1)),
      dsize := b.dsize + (if len < 128 then 128 else len + 1),
      dptr := b.dptr }
  else b

/-- Core of `mutt_buffer_add(buf, s, len)` for non-NULL `buf` and `s`:
    grow if needed, bail out on a NULL `dptr` (no allocation), else
    `memcpy(dptr, s, len)`, advance `dptr`, and write the terminator. -/
def mutt_buffer_add_core (b : Buffer) (s : List Nat) (len : Nat) : Buffer :=
  if (buffer_grow b len).data = [] then buffer_grow b len
  else { buffer_grow b len with
         data := storeBytes (buffer_grow b len).data (buffer_grow b len).dptr
                   (s.take len ++ [0]),
         dptr := (buffer_grow b len).dptr + len }

/-- `mutt_buffer_add` including the `!buf || !s` early return
    (`none` models a NULL pointer). -/
def mutt_buffer_add (buf : Option Buffer) (s : Option (List Nat)) (len : Nat) :
    Option Buffer :=
  match buf, s with
  | none, _ => none
  | some b, none => some b
  | some b, some s => some (mutt_buffer_add_core b s len)

/-- `mutt_buffer_addstr(buf, s)` = `mutt_buffer_add(buf, s, mutt_strlen(s))`. -/
def mutt_buffer_addstr_core (b : Buffer) (s : List Nat) : Buffer :=
  mutt_buffer_add_core b s (mutt_strlen s)

/-- `mutt_buffer_addch(buf, c)` = `mutt_buffer_add(buf, &c, 1)`. -/
def mutt_buffer_addch_core (b : Buffer) (c : Nat) : Buffer :=
  mutt_buffer_add_core b [c] 1

/-- `vsnprintf(l + i, blen, ...)` where `out` is the full formatted text:
    writes nothing when `blen = 0`, otherwise `min(out.length, blen-1)`
    bytes and a NUL.  (The return value, `out.length`, is handled by the
    caller.) -/
def vsnprintf_write (l : List Nat) (i blen : Nat) (out : List Nat) : List Nat :=
  if blen = 0 then l else storeBytes l i (out.take (blen - 1) ++ [0])

/-- The defensive `!blen` path of `mutt_buffer_printf`: when
    `dsize - doff` is 0, grow `dsize` by 128 and reallocate before the
    first `vsnprintf`. -/
def printf_fix (b : Buffer) : Buffer :=
  if b.dsize - b.dptr = 0 then
    { data := safe_realloc b.data (b.dsize + 128), dsize := b.dsize + 128,
      dptr := b.dptr }
  else b

/-- The write limit `blen` passed to the first `vsnprintf`. -/
def printf_blen (b : Buffer) : Nat :=
  if b.dsize - b.dptr = 0 then 128 else b.dsize - b.dptr

/-- The retry growth `blen = ++len - blen; if (blen < 128) blen = 128`. -/
def printf_grow (blen L : Nat) : Nat :=
  if L + 1 - blen < 128 then 128 else L + 1 - blen

/-- `mutt_buffer_printf(buf, fmt, ...)` where `out` is the formatted text
    the varargs denote: defensive growth when the remaining room is 0,
    one `vsnprintf`, a grow-and-retry pass when the output was truncated
    (`len >= blen`), cursor advance when the result is positive; returns
    the number of characters written. -/
def mutt_buffer_printf (b : Buffer) (out : List Nat) : Buffer × Int :=
  if printf_blen b ≤ out.length then
    (⟨vsnprintf_write
        (safe_realloc (vsnprintf_write (printf_fix b).data b.dptr (printf_blen b) out)
          ((printf_fix b).dsize + printf_grow (printf_blen b) out.length))
        b.dptr (out.length + 1) out,
      (printf_fix b).dsize + printf_grow (printf_blen b) out.length,
      if 0 < out.length then b.dptr + out.length else b.dptr⟩,
     (out.length : Int))
  else
    (⟨vsnprintf_write (printf_fix b).data b.dptr (printf_blen b) out,
      (printf_fix b).dsize,
      if 0 < out.length then b.dptr + out.length else b.dptr⟩,
     (out.length : Int))

/-- Modelled from the spec: `Truncate(offset)` of spec §4.1 has no
    counterpart in `lib/lib_buffer.c` (the driver truncates its stack
    array directly); per the spec it moves the cursor back to `offset`
    (required to be ≤ the current cursor) and writes the terminator
    there, without reallocating. -/
def mutt_buffer_truncate (b : Buffer) (off : Nat) : Buffer :=
  { b with data := b.data.set off 0, dptr := off }

/-! ### The IMAP PLAIN authentication driver -/

/-- Results of `imap_cmd_step`. -/
inductive ImapCmdRc
  | IMAP_CMD_CONTINUE
  | IMAP_CMD_RESPOND
  | IMAP_CMD_OK
  | IMAP_CMD_BAD
  | IMAP_CMD_NO
deriving DecidableEq, Repr

/-- Results of `imap_auth_plain`. -/
inductive ImapAuthRes
  | IMAP_AUTH_SUCCESS
  | IMAP_AUTH_FAILURE
  | IMAP_AUTH_UNAVAIL
deriving DecidableEq, Repr

/-- Observable side effects of the driver, in order of occurrence.
    `message` is the one `mutt_message(\"Logging in...\")` call and
    `error` the one `mutt_error(\"Login failed\")` call. -/
inductive Event
  | cmd_start (text : List Nat)
  | socket_send (text : List Nat)
  | message
  | error
  | clear_error
deriving DecidableEq, Repr

open ImapCmdRc ImapAuthRes

/-- `while (rc == IMAP_CMD_CONTINUE) rc = imap_cmd_step(...)` with the
    step results supplied as a list: returns the rc the loop stops at and
    the step results not yet consumed.  (If the list runs out while rc is
    `IMAP_CMD_CONTINUE` the C loop would keep calling the step function;
    the model stops with `IMAP_CMD_CONTINUE` in hand.) -/
def runSteps : ImapCmdRc → List ImapCmdRc → ImapCmdRc × List ImapCmdRc
  | rc, [] => (rc, [])
  | rc, r :: rest =>
      if rc = IMAP_CMD_CONTINUE then runSteps r rest else (rc, r :: rest)

/-- Inputs of one `imap_auth_plain` call: whether `mutt_account_getuser`
    and `mutt_account_getpass` succeed, whether the `SASL_IR` capability
    bit is set, the SASL PLAIN payload the encoder yields, and the
    successive results of `imap_cmd_step`. -/
structure AuthEnv where
  getuser_ok : Bool
  getpass_ok : Bool
  sasl_ir : Bool
  payload : List Nat
  steps : List ImapCmdRc

/-- The bytes of the literal `"AUTHENTICATE PLAIN"` (18 bytes; the C
    array `auth_plain_cmd` additionally holds a terminator, so
    `sizeof(auth_plain_cmd) = 19`). -/
def auth_plain_cmd : List Nat :=
  [65, 85, 84, 72, 69, 78, 84, 73, 67, 65, 84, 69, 32, 80, 76, 65, 73, 78]

/-- The bytes of `"\r\n"`. -/
def crlf : List Nat := [13, 10]

/-- Modelled from the spec: `mutt_sasl_plain_msg` is not in src/; per the
    spec it builds `<cmd> SP <encoded payload>` in the caller's buffer,
    the payload being produced by the external PLAIN encoder (abstract
    here). -/
def mutt_sasl_plain_msg (cmd payload : List Nat) : List Nat :=
  cmd ++ 32 :: payload

/-- One run of `imap_auth_plain`: its return value, the event trace, the
    value `rc` holds when the classification at the end of the function
    is reached (`IMAP_CMD_CONTINUE`, its initial value, on the early
    returns), and the unconsumed step results. -/
structure AuthRun where
  res : ImapAuthRes
  events : List Event
  final_rc : ImapCmdRc
  steps_left : List ImapCmdRc
deriving DecidableEq, Repr

/-- Lines 90–98 of `auth_plain.c`: map the final `rc` to the result and
    the error notification it emits. -/
def classifyRc (rc : ImapCmdRc) : ImapAuthRes × List Event :=
  if rc = IMAP_CMD_BAD then (IMAP_AUTH_UNAVAIL, [])
  else if rc = IMAP_CMD_NO then (IMAP_AUTH_FAILURE, [Event.error])
  else (IMAP_AUTH_SUCCESS, [])

/-- Lines 63–88 of `auth_plain.c`: the branch on `SASL_IR`.  Returns the
    value of `rc` after the branch, the remaining step results, and the
    wire events the branch emitted.  In the split branch the stack array
    is truncated in place (`buf[18] = 0`), the keyword is sent as a
    command, steps are pumped while `rc == IMAP_CMD_CONTINUE`, and on
    `IMAP_CMD_RESPOND` the suffix `buf + 19` (payload) plus `"\r\n"` is
    written to the socket. -/
def prePhase (env : AuthEnv) : ImapCmdRc × List ImapCmdRc × List Event :=
  if env.sasl_ir = true then
    (IMAP_CMD_CONTINUE, env.steps,
      [Event.cmd_start (cstr (mutt_sasl_plain_msg auth_plain_cmd env.payload))])
  else
    if (runSteps IMAP_CMD_CONTINUE env.steps).1 = IMAP_CMD_RESPOND then
      ((runSteps IMAP_CMD_CONTINUE env.steps).1,
       (runSteps IMAP_CMD_CONTINUE env.steps).2,
       [Event.cmd_start (cstr ((mutt_sasl_plain_msg auth_plain_cmd env.payload).set 18 0)),
        Event.socket_send
          (cstr (((mutt_sasl_plain_msg auth_plain_cmd env.payload).set 18 0).drop 19) ++ crlf)])
    else
      ((runSteps IMAP_CMD_CONTINUE env.steps).1,
       (runSteps IMAP_CMD_CONTINUE env.steps).2,
       [Event.cmd_start (cstr ((mutt_sasl_plain_msg auth_plain_cmd env.payload).set 18 0))])

/-- The body of `imap_auth_plain` after both credential acquisitions
    succeeded: notification, message build, the `SASL_IR` branch, the
    final `while (rc == IMAP_CMD_CONTINUE)` loop, classification, and the
    unconditional `mutt_clear_error()`. -/
def authMain (env : AuthEnv) : AuthRun :=
  ⟨(classifyRc (runSteps (prePhase env).1 (prePhase env).2.1).1).1,
   Event.message :: (prePhase env).2.2 ++
     (classifyRc (runSteps (prePhase env).1 (prePhase env).2.1).1).2 ++
     [Event.clear_error],
   (runSteps (prePhase env).1 (prePhase env).2.1).1,
   (runSteps (prePhase env).1 (prePhase env).2.1).2⟩

/-- `imap_auth_plain`, lines 47–102 of `auth_plain.c`, including the two
    early `return IMAP_AUTH_FAILURE` paths on credential failure. -/
def imap_auth_plain (env : AuthEnv) : AuthRun :=
  if env.getuser_ok = false then
    ⟨IMAP_AUTH_FAILURE, [], IMAP_CMD_CONTINUE, env.steps⟩
  else if env.getpass_ok = false then
    ⟨IMAP_AUTH_FAILURE, [], IMAP_CMD_CONTINUE, env.steps⟩
  else authMain env

/-- Events that put bytes on the wire. -/
def isWire : Event → Bool
  | Event.cmd_start _ => true
  | Event.socket_send _ => true
  | _ => false

/-- The wire traffic of a trace. -/
def wireEvents (l : List Event) : List Event := l.filter isWire

/-- Error-notification events. -/
def isError : Event → Bool
  | Event.error => true
  | _ => false

/-- Number of user-visible error notifications in a trace. -/
def errorCount (l : List Event) : Nat := (l.filter isError).length

/-- The buffer invariant of spec §3: terminator at the cursor and
    `cursor ≤ capacity - 1`. -/
def BufInv (b : Buffer) : Prop := b.data[b.dptr]? = some 0 ∧ b.dptr + 1 ≤ b.dsize

/-- States a buffer can be in between public operations: the cursor is
    within the capacity field and the capacity field within the
    allocation. -/
def Reach (b : Buffer) : Prop := b.dptr ≤ b.dsize ∧ b.dsize ≤ b.data.length

/-! ### Helper lemmas about the byte-level primitives -/

theorem safe_realloc_length (l : List Nat) (n : Nat) : (safe_realloc l n).length = n := by
  simp only [safe_realloc, List.length_take, List.length_append, List.length_replicate]
  omega

theorem safe_realloc_getElem {l : List Nat} {n i : Nat} (h1 : i < l.length) (h2 : i < n) :
    (safe_realloc l n)[i]? = l[i]? := by
  unfold safe_realloc
  rw [List.getElem?_take, if_pos h2, List.getElem?_append, if_pos h1]

theorem storeBytes_length {l s : List Nat} {i : Nat} (h : i + s.length ≤ l.length) :
    (storeBytes l i s).length = l.length := by
  simp only [storeBytes, List.length_append, List.length_take, List.length_drop]
  omega

theorem storeBytes_getElem_left {l s : List Nat} {i k : Nat} (h : k < i) (hi : i ≤ l.length) :
    (storeBytes l i s)[k]? = l[k]? := by
  have ht : (l.take i).length = i := by simp [List.length_take]; omega
  simp only [storeBytes, List.append_assoc]
  rw [List.getElem?_append, ht, if_pos h, List.getElem?_take, if_pos h]

theorem storeBytes_getElem_mid {l s : List Nat} {i k : Nat} (hk : k < s.length)
    (hi : i ≤ l.length) : (storeBytes l i s)[i + k]? = s[k]? := by
  have ht : (l.take i).length = i := by simp [List.length_take]; omega
  simp only [storeBytes, List.append_assoc]
  rw [List.getElem?_append_right (by omega), ht]
  have : i + k - i = k := by omega
  rw [this, List.getElem?_append, if_pos hk]

theorem storeBytes_drop {l s : List Nat} {i : Nat} (hi : i ≤ l.length) :
    (storeBytes l i s).drop (i + s.length) = l.drop (i + s.length) := by
  have ht : (l.take i ++ s).length = i + s.length := by simp [List.length_take]; omega
  unfold storeBytes
  rw [← ht, List.drop_left]

theorem append_zero_getElem (A : List Nat) : (A ++ [0])[A.length]? = some 0 := by
  rw [List.getElem?_append_right (le_refl _)]
  simp

theorem cstr_of_not_mem {l : List Nat} (h : 0 ∉ l) : cstr l = l := by
  induction l with
  | nil => rfl
  | cons a t ih =>
      simp only [List.mem_cons, not_or] at h
      have ha : (a != 0) = true := by
        simp only [bne_iff_ne, ne_eq]
        exact fun e => h.1 e.symm
      have ht := ih h.2
      unfold cstr at ht ⊢
      simp only [List.takeWhile_cons, ha, if_true, ht]

theorem cstr_length_le (l : List Nat) : mutt_strlen l ≤ l.length := by
  induction l with
  | nil => simp [mutt_strlen, cstr]
  | cons a t ih =>
      by_cases ha : (a != 0) = true
      · simpa [mutt_strlen, cstr, List.takeWhile_cons, ha] using ih
      · simp [mutt_strlen, cstr, List.takeWhile_cons, ha]

theorem set_at_getElem_self {l : List Nat} {i : Nat} (h : l[i]? = some 0) :
    storeBytes l i [0] = l := by
  induction l generalizing i with
  | nil => simp at h
  | cons a t ih =>
      cases i with
      | zero =>
          simp only [List.getElem?_cons_zero, Option.some.injEq] at h
          simp [storeBytes, h]
      | succ i =>
          simp only [List.getElem?_cons_succ] at h
          have := ih h
          simp only [storeBytes, List.length_cons, List.length_singleton] at this ⊢
          simpa [List.take_succ_cons, List.drop_succ_cons] using congrArg (a :: ·) this

/-! ### Lemmas about `mutt_buffer_add` and `mutt_buffer_printf` -/

theorem buffer_grow_dptr (b : Buffer) (len : Nat) : (buffer_grow b len).dptr = b.dptr := by
  unfold buffer_grow
  split <;> rfl

theorem buffer_grow_dsize_mono (b : Buffer) (len : Nat) :
    b.dsize ≤ (buffer_grow b len).dsize := by
  unfold buffer_grow
  split
  · dsimp only
    split <;> omega
  · exact le_refl _

theorem buffer_grow_room (b : Buffer) (len : Nat) (h1 : b.dptr ≤ b.dsize) :
    b.dptr + len + 1 ≤ (buffer_grow b len).dsize := by
  unfold buffer_grow
  split
  · dsimp only
    split <;> omega
  · omega

theorem buffer_grow_length (b : Buffer) (len : Nat) (h2 : b.dsize ≤ b.data.length) :
    (buffer_grow b len).dsize ≤ (buffer_grow b len).data.length := by
  unfold buffer_grow
  split
  · dsimp only
    rw [safe_realloc_length]
  · exact h2

theorem buffer_grow_getElem (b : Buffer) (len : Nat) (h1 : b.dptr ≤ b.dsize)
    (h2 : b.dsize ≤ b.data.length) (i : Nat) (hi : i < b.dptr) :
    (buffer_grow b len).data[i]? = b.data[i]? := by
  unfold buffer_grow
  split
  · dsimp only
    split <;> exact safe_realloc_getElem (by omega) (by omega)
  · rfl

/-- Under a reachable pre-state the NULL-`dptr` bail-out of
    `mutt_buffer_add` is dead: the write always happens. -/
theorem add_core_spec (b : Buffer) (s : List Nat) (len : Nat)
    (h1 : b.dptr ≤ b.dsize) (h2 : b.dsize ≤ b.data.length) :
    mutt_buffer_add_core b s len =
      ⟨storeBytes (buffer_grow b len).data b.dptr (s.take len ++ [0]),
       (buffer_grow b len).dsize, b.dptr + len⟩ := by
  have hroom := buffer_grow_room b len h1
  have hlen := buffer_grow_length b len h2
  have hne : (buffer_grow b len).data ≠ [] := by
    intro he
    rw [he] at hlen
    simp at hlen
    omega
  unfold mutt_buffer_add_core
  rw [if_neg hne, buffer_grow_dptr]

theorem add_core_inv (b : Buffer) (s : List Nat) (len : Nat)
    (h1 : b.dptr ≤ b.dsize) (h2 : b.dsize ≤ b.data.length) (hs : len ≤ s.length) :
    BufInv (mutt_buffer_add_core b s len) ∧
    (mutt_buffer_add_core b s len).dptr = b.dptr + len ∧
    (mutt_buffer_add_core b s len).dsize ≤ (mutt_buffer_add_core b s len).data.length := by
  rw [add_core_spec b s len h1 h2]
  have hroom := buffer_grow_room b len h1
  have hlen := buffer_grow_length b len h2
  have htake : (s.take len).length = len := by
    simp only [List.length_take]
    omega
  have hslen : (s.take len ++ [0]).length = len + 1 := by
    simp [htake]
  have hbound : b.dptr + (s.take len ++ [0]).length ≤ (buffer_grow b len).data.length := by
    omega
  have hsl : (storeBytes (buffer_grow b len).data b.dptr (s.take len ++ [0])).length
      = (buffer_grow b len).data.length := storeBytes_length hbound
  refine ⟨⟨?_, by dsimp only; omega⟩, rfl, by dsimp only; omega⟩
  dsimp only [BufInv]
  rw [show b.dptr + len = b.dptr + len from rfl]
  have hmid := storeBytes_getElem_mid (l := (buffer_grow b len).data)
    (s := s.take len ++ [0]) (i := b.dptr) (k := len) (by omega) (by omega)
  have hz := append_zero_getElem (s.take len)
  rw [htake] at hz
  rw [hmid, hz]

theorem add_core_preserve (b : Buffer) (s : List Nat) (len : Nat)
    (h1 : b.dptr ≤ b.dsize) (h2 : b.dsize ≤ b.data.length) (i : Nat) (hi : i < b.dptr) :
    (mutt_buffer_add_core b s len).data[i]? = b.data[i]? := by
  rw [add_core_spec b s len h1 h2]
  have hroom := buffer_grow_room b len h1
  have hlen := buffer_grow_length b len h2
  dsimp only
  rw [storeBytes_getElem_left hi (by omega)]
  exact buffer_grow_getElem b len h1 h2 i hi

theorem add_core_dsize_mono (b : Buffer) (s : List Nat) (len : Nat) :
    b.dsize ≤ (mutt_buffer_add_core b s len).dsize := by
  unfold mutt_buffer_add_core
  split
  · exact buffer_grow_dsize_mono b len
  · dsimp only
    exact buffer_grow_dsize_mono b len

theorem add_core_dsize_growth (b : Buffer) (s : List Nat) (len : Nat)
    (h : b.dsize < b.dptr + len + 1) :
    (mutt_buffer_add_core b s len).dsize = b.dsize + max 128 (len + 1) := by
  have hg : (buffer_grow b len).dsize = b.dsize + max 128 (len + 1) := by
    unfold buffer_grow
    rw [if_pos (by omega)]
    dsimp only
    split <;> omega
  unfold mutt_buffer_add_core
  split
  · exact hg
  · dsimp only
    exact hg

theorem printf_fix_dptr (b : Buffer) : (printf_fix b).dptr = b.dptr := by
  unfold printf_fix
  split <;> rfl

theorem printf_blen_pos (b : Buffer) : 1 ≤ printf_blen b := by
  unfold printf_blen
  split <;> omega

theorem printf_fix_dsize (b : Buffer) (h1 : b.dptr ≤ b.dsize) :
    b.dptr + printf_blen b = (printf_fix b).dsize := by
  unfold printf_fix printf_blen
  by_cases hc : b.dsize - b.dptr = 0
  · rw [if_pos hc, if_pos hc]
    dsimp only
    omega
  · rw [if_neg hc, if_neg hc]
    omega

theorem printf_fix_length (b : Buffer) (h2 : b.dsize ≤ b.data.length) :
    (printf_fix b).dsize ≤ (printf_fix b).data.length := by
  unfold printf_fix
  split
  · dsimp only
    rw [safe_realloc_length]
  · exact h2

theorem printf_grow_ge (blen L : Nat) :
    L + 1 - blen ≤ printf_grow blen L ∧ 128 ≤ printf_grow blen L := by
  unfold printf_grow
  split <;> omega

/-- After `mutt_buffer_printf` on a reachable buffer the terminator sits
    at the (possibly advanced) cursor and the cursor is below `dsize`. -/
theorem printf_inv (b : Buffer) (out : List Nat) (h1 : b.dptr ≤ b.dsize)
    (h2 : b.dsize ≤ b.data.length) : BufInv (mutt_buffer_printf b out).1 := by
  have hbl := printf_blen_pos b
  have hds := printf_fix_dsize b h1
  have hfl := printf_fix_length b h2
  have hgg := printf_grow_ge (printf_blen b) out.length
  unfold mutt_buffer_printf
  by_cases hr : printf_blen b ≤ out.length
  · rw [if_pos hr]
    have hL : 0 < out.length := by omega
    unfold BufInv
    dsimp only
    rw [if_pos hL]
    have hsub : out.length + 1 - 1 = out.length := by omega
    have htake : (out.take out.length).length = out.length := by simp
    set X := vsnprintf_write (printf_fix b).data b.dptr (printf_blen b) out with hXdef
    have houter : vsnprintf_write
        (safe_realloc X ((printf_fix b).dsize + printf_grow (printf_blen b) out.length))
        b.dptr (out.length + 1) out
        = storeBytes
            (safe_realloc X ((printf_fix b).dsize + printf_grow (printf_blen b) out.length))
            b.dptr (out.take out.length ++ [0]) := by
      unfold vsnprintf_write
      rw [if_neg (by omega : ¬out.length + 1 = 0), hsub]
    rw [houter]
    have hD2 := safe_realloc_length X
      ((printf_fix b).dsize + printf_grow (printf_blen b) out.length)
    constructor
    · have hmid := storeBytes_getElem_mid
        (l := safe_realloc X ((printf_fix b).dsize + printf_grow (printf_blen b) out.length))
        (s := out.take out.length ++ [0]) (i := b.dptr) (k := out.length)
        (by simp [htake]) (by rw [hD2]; omega)
      rw [hmid]
      have hz := append_zero_getElem (out.take out.length)
      rw [htake] at hz
      exact hz
    · omega
  · rw [if_neg hr]
    push_neg at hr
    unfold BufInv
    dsimp only
    have hidx : (if 0 < out.length then b.dptr + out.length else b.dptr)
        = b.dptr + out.length := by split <;> omega
    rw [hidx]
    unfold vsnprintf_write
    rw [if_neg (by omega : ¬printf_blen b = 0)]
    have htk : (out.take (printf_blen b - 1)).length = out.length := by
      simp only [List.length_take]
      omega
    constructor
    · have hmid := storeBytes_getElem_mid
        (l := (printf_fix b).data)
        (s := out.take (printf_blen b - 1) ++ [0]) (i := b.dptr) (k := out.length)
        (by simp [htk]) (by omega)
      rw [hmid]
      have hz := append_zero_getElem (out.take (printf_blen b - 1))
      rw [htk] at hz
      exact hz
    · omega

theorem truncate_nul (b : Buffer) (off : Nat) (hoff : off < b.data.length) :
    (mutt_buffer_truncate b off).data[(mutt_buffer_truncate b off).dptr]? = some 0 := by
  unfold mutt_buffer_truncate
  dsimp only
  exact List.getElem?_set_self hoff

/-! ### Lemmas about the authentication driver -/

open ImapCmdRc ImapAuthRes

theorem runSteps_stop {rc : ImapCmdRc} (h : ¬rc = IMAP_CMD_CONTINUE)
    (l : List ImapCmdRc) : runSteps rc l = (rc, l) := by
  cases l <;> simp [runSteps, h]

theorem runSteps_replicate {r : ImapCmdRc} (h : ¬r = IMAP_CMD_CONTINUE)
    (n : Nat) (rest : List ImapCmdRc) :
    runSteps IMAP_CMD_CONTINUE (List.replicate n IMAP_CMD_CONTINUE ++ r :: rest)
      = (r, rest) := by
  induction n with
  | zero => simp [runSteps, runSteps_stop h]
  | succ n ih => simpa [List.replicate_succ, runSteps] using ih

theorem prePhase_no_error (env : AuthEnv) :
    List.filter isError (prePhase env).2.2 = [] := by
  unfold prePhase
  split
  · rfl
  · split <;> rfl

theorem prePhase_wire (env : AuthEnv) :
    List.filter isWire (prePhase env).2.2 = (prePhase env).2.2 := by
  unfold prePhase
  split
  · rfl
  · split <;> rfl

theorem classify_no_wire (rc : ImapCmdRc) :
    List.filter isWire (classifyRc rc).2 = [] := by
  unfold classifyRc
  split
  · rfl
  · split <;> rfl

theorem imap_auth_plain_main (env : AuthEnv) (hu : env.getuser_ok = true)
    (hp : env.getpass_ok = true) : imap_auth_plain env = authMain env := by
  unfold imap_auth_plain
  rw [hu, hp]
  rfl

theorem authMain_wire (env : AuthEnv) :
    wireEvents (authMain env).events = (prePhase env).2.2 := by
  unfold wireEvents authMain
  dsimp only
  rw [List.filter_append, List.filter_append, List.filter_cons,
    prePhase_wire env, classify_no_wire]
  simp [isWire]

theorem authMain_err (env : AuthEnv) :
    errorCount (authMain env).events
      = errorCount (classifyRc (authMain env).final_rc).2 := by
  unfold errorCount authMain
  dsimp only
  rw [List.filter_append, List.filter_append, List.filter_cons,
    prePhase_no_error env]
  simp [isError]

theorem cstr_set18 (payload : List Nat) :
    cstr ((mutt_sasl_plain_msg auth_plain_cmd payload).set 18 0) = auth_plain_cmd := rfl

theorem drop19_set18 (payload : List Nat) :
    ((mutt_sasl_plain_msg auth_plain_cmd payload).set 18 0).drop 19 = payload := rfl

theorem cstr_full (payload : List Nat) (h : (0 : Nat) ∉ payload) :
    cstr (mutt_sasl_plain_msg auth_plain_cmd payload)
      = mutt_sasl_plain_msg auth_plain_cmd payload := by
  apply cstr_of_not_mem
  intro hm
  unfold mutt_sasl_plain_msg at hm
  rcases List.mem_append.1 hm with h1 | h2
  · exact absurd h1 (by decide)
  · rcases List.mem_cons.1 h2 with h3 | h4
    · exact absurd h3 (by decide)
    · exact h h4

/-! ### The claims -/

/-- **C1, counterexample**: with valid credentials, `SASL_IR` clear and
    step results `RESPOND, NO`, the driver classifies while `rc` is still
    `IMAP_CMD_RESPOND` (a continuation request, not a terminal state),
    leaves the `IMAP_CMD_NO` step unconsumed, and returns success — so it
    does not keep stepping to a terminal state after sending the
    continuation response. -/
theorem claim_C1_counterexample :
    (imap_auth_plain ⟨true, true, false, [97],
        [IMAP_CMD_RESPOND, IMAP_CMD_NO]⟩).final_rc = IMAP_CMD_RESPOND ∧
    (imap_auth_plain ⟨true, true, false, [97],
        [IMAP_CMD_RESPOND, IMAP_CMD_NO]⟩).steps_left = [IMAP_CMD_NO] ∧
    (imap_auth_plain ⟨true, true, false, [97],
        [IMAP_CMD_RESPOND, IMAP_CMD_NO]⟩).res = IMAP_AUTH_SUCCESS :=
  ⟨rfl, rfl, rfl⟩

/-- **C1** (amended): the driver invokes the step function only while the
    result is `IMAP_CMD_CONTINUE` (MORE); in the split-framing branch the
    first non-MORE step result is exactly what reaches classification —
    if that result is `IMAP_CMD_RESPOND` (CONTINUE_REQUESTED) the
    continuation response is sent but no further step result is consumed
    before classification. -/
theorem claim_C1 (env : AuthEnv) (hu : env.getuser_ok = true)
    (hp : env.getpass_ok = true) (hs : env.sasl_ir = false)
    (n : Nat) (r : ImapCmdRc) (rest : List ImapCmdRc)
    (hr : ¬r = IMAP_CMD_CONTINUE)
    (hsteps : env.steps = List.replicate n IMAP_CMD_CONTINUE ++ r :: rest) :
    (imap_auth_plain env).final_rc = r ∧
    (imap_auth_plain env).steps_left = rest := by
  rw [imap_auth_plain_main env hu hp]
  have hpre : (prePhase env).1 = r ∧ (prePhase env).2.1 = rest := by
    unfold prePhase
    rw [hs, if_neg (by simp), hsteps, runSteps_replicate hr]
    split <;> exact ⟨rfl, rfl⟩
  unfold authMain
  dsimp only
  rw [hpre.1, hpre.2, runSteps_stop hr]
  exact ⟨rfl, rfl⟩

/-- **C1, witness**: step results `MORE, CONTINUE_REQUESTED, REJECTED` in
    the split branch end classification at `IMAP_CMD_RESPOND` with the
    rejection unconsumed. -/
theorem claim_C1_witness :
    (imap_auth_plain ⟨true, true, false, [98],
        [IMAP_CMD_CONTINUE, IMAP_CMD_RESPOND, IMAP_CMD_NO]⟩).final_rc
      = IMAP_CMD_RESPOND ∧
    (imap_auth_plain ⟨true, true, false, [98],
        [IMAP_CMD_CONTINUE, IMAP_CMD_RESPOND, IMAP_CMD_NO]⟩).steps_left
      = [IMAP_CMD_NO] :=
  claim_C1 ⟨true, true, false, [98], [IMAP_CMD_CONTINUE, IMAP_CMD_RESPOND, IMAP_CMD_NO]⟩
    rfl rfl rfl 1 IMAP_CMD_RESPOND [IMAP_CMD_NO] (by decide) rfl

/-- **C2**: with obtainable credentials (and a NUL-free payload, as the
    base64 encoder guarantees), if `SASL_IR` is set the only wire traffic
    is one started command whose text is `AUTHENTICATE PLAIN <payload>`;
    if it is clear, the first command text is exactly
    `AUTHENTICATE PLAIN`, and the bytes `<payload>\r\n` are sent as a
    second message if and only if the first non-MORE step result after
    the keyword command is a continuation request. -/
theorem claim_C2 (env : AuthEnv) (hu : env.getuser_ok = true)
    (hp : env.getpass_ok = true) (hz : (0 : Nat) ∉ env.payload) :
    wireEvents (imap_auth_plain env).events =
      if env.sasl_ir = true then
        [Event.cmd_start (mutt_sasl_plain_msg auth_plain_cmd env.payload)]
      else
        Event.cmd_start auth_plain_cmd ::
          (if (runSteps IMAP_CMD_CONTINUE env.steps).1 = IMAP_CMD_RESPOND then
            [Event.socket_send (env.payload ++ crlf)]
          else []) := by
  rw [imap_auth_plain_main env hu hp, authMain_wire env]
  unfold prePhase
  by_cases hs : env.sasl_ir = true
  · rw [if_pos hs, if_pos hs, cstr_full env.payload hz]
  · rw [if_neg hs, if_neg hs]
    by_cases hresp : (runSteps IMAP_CMD_CONTINUE env.steps).1 = IMAP_CMD_RESPOND
    · rw [if_pos hresp, if_pos hresp, cstr_set18, drop19_set18,
        cstr_of_not_mem hz]
    · rw [if_neg hresp, if_neg hresp, cstr_set18]

/-- **C2, witness**: with `SASL_IR` set, payload `[97]`, the single wire
    event is the full command. -/
theorem claim_C2_witness :
    wireEvents (imap_auth_plain ⟨true, true, true, [97], []⟩).events
      = [Event.cmd_start (mutt_sasl_plain_msg auth_plain_cmd [97])] :=
  claim_C2 ⟨true, true, true, [97], []⟩ rfl rfl (by decide)

/-- **C4**: whatever the terminal rc reached with valid credentials:
    `IMAP_CMD_BAD` (unavailable) yields `IMAP_AUTH_UNAVAIL` and no error
    notification, `IMAP_CMD_NO` (rejection) yields `IMAP_AUTH_FAILURE`
    and exactly one error notification, and `IMAP_CMD_OK` yields
    `IMAP_AUTH_SUCCESS` with no error notification. -/
theorem claim_C4 (env : AuthEnv) (hu : env.getuser_ok = true)
    (hp : env.getpass_ok = true) :
    ((imap_auth_plain env).final_rc = IMAP_CMD_BAD →
       (imap_auth_plain env).res = IMAP_AUTH_UNAVAIL ∧
       errorCount (imap_auth_plain env).events = 0) ∧
    ((imap_auth_plain env).final_rc = IMAP_CMD_NO →
       (imap_auth_plain env).res = IMAP_AUTH_FAILURE ∧
       errorCount (imap_auth_plain env).events = 1) ∧
    ((imap_auth_plain env).final_rc = IMAP_CMD_OK →
       (imap_auth_plain env).res = IMAP_AUTH_SUCCESS ∧
       errorCount (imap_auth_plain env).events = 0) := by
  rw [imap_auth_plain_main env hu hp]
  have hres : (authMain env).res = (classifyRc (authMain env).final_rc).1 := rfl
  have herr := authMain_err env
  refine ⟨fun h => ?_, fun h => ?_, fun h => ?_⟩ <;>
    rw [hres, herr, h] <;> exact ⟨rfl, rfl⟩

/-- **C4, witness**: an `IMAP_CMD_BAD` step yields `IMAP_AUTH_UNAVAIL`
    with no error notification. -/
theorem claim_C4_witness :
    (imap_auth_plain ⟨true, true, true, [97], [IMAP_CMD_BAD]⟩).res
      = IMAP_AUTH_UNAVAIL ∧
    errorCount (imap_auth_plain ⟨true, true, true, [97], [IMAP_CMD_BAD]⟩).events
      = 0 :=
  (claim_C4 ⟨true, true, true, [97], [IMAP_CMD_BAD]⟩ rfl rfl).1 rfl

/-- **C5**: if username or password acquisition fails, the result is
    `IMAP_AUTH_FAILURE` and no wire traffic occurs. -/
theorem claim_C5 (env : AuthEnv)
    (h : env.getuser_ok = false ∨ env.getpass_ok = false) :
    (imap_auth_plain env).res = IMAP_AUTH_FAILURE ∧
    wireEvents (imap_auth_plain env).events = [] := by
  unfold imap_auth_plain
  rcases h with h | h
  · rw [h, if_pos rfl]
    exact ⟨rfl, rfl⟩
  · by_cases hu : env.getuser_ok = false
    · rw [if_pos hu]
      exact ⟨rfl, rfl⟩
    · rw [if_neg hu, h, if_pos rfl]
      exact ⟨rfl, rfl⟩

/-- **C5, witness**: failing username acquisition returns failure without
    wire traffic. -/
theorem claim_C5_witness :
    (imap_auth_plain ⟨false, true, true, [97], []⟩).res = IMAP_AUTH_FAILURE ∧
    wireEvents (imap_auth_plain ⟨false, true, true, [97], []⟩).events = [] :=
  claim_C5 ⟨false, true, true, [97], []⟩ (Or.inl rfl)

/-- **C6, counterexample**: when username acquisition fails the function
    returns without invoking `mutt_clear_error` (the trace is empty), so
    the notification-clearing step does not run on every exit path. -/
theorem claim_C6_counterexample :
    Event.clear_error ∉ (imap_auth_plain ⟨false, true, false, [97], []⟩).events ∧
    (imap_auth_plain ⟨false, true, false, [97], []⟩).res = IMAP_AUTH_FAILURE := by
  decide

/-- **C6** (amended): `mutt_clear_error` is invoked (as the last action)
    on every exit path that passed credential acquisition — i.e. on every
    path that emitted the "logging in" notification; the two early
    credential-failure returns perform no notification activity at all
    (their trace is empty), so no stale status can be left behind by
    them either. -/
theorem claim_C6 (env : AuthEnv) :
    (env.getuser_ok = true → env.getpass_ok = true →
      (imap_auth_plain env).events.getLast? = some Event.clear_error) ∧
    (env.getuser_ok = false ∨ env.getpass_ok = false →
      (imap_auth_plain env).events = []) := by
  constructor
  · intro hu hp
    rw [imap_auth_plain_main env hu hp]
    unfold authMain
    dsimp only
    exact List.getLast?_concat _
  · intro h
    unfold imap_auth_plain
    rcases h with h | h
    · rw [h, if_pos rfl]
    · by_cases hu : env.getuser_ok = false
      · rw [if_pos hu]
      · rw [if_neg hu, h, if_pos rfl]

/-- **C6, witness**: on a successful-path run the last event is the
    notification clear; on a credential-failure run the trace is empty. -/
theorem claim_C6_witness :
    (imap_auth_plain ⟨true, true, true, [97],
        [IMAP_CMD_OK]⟩).events.getLast? = some Event.clear_error ∧
    (imap_auth_plain ⟨true, false, true, [97], []⟩).events = [] :=
  ⟨(claim_C6 ⟨true, true, true, [97], [IMAP_CMD_OK]⟩).1 rfl rfl,
   (claim_C6 ⟨true, false, true, [97], []⟩).2 (Or.inr rfl)⟩

/-- **C10**: in the split branch, if the first step result after the bare
    keyword command is `IMAP_CMD_OK` (acceptance without a continuation
    prompt), no second message is sent and the result is
    `IMAP_AUTH_SUCCESS`. -/
theorem claim_C10 (env : AuthEnv) (hu : env.getuser_ok = true)
    (hp : env.getpass_ok = true) (hs : env.sasl_ir = false)
    (rest : List ImapCmdRc) (hsteps : env.steps = IMAP_CMD_OK :: rest) :
    (imap_auth_plain env).res = IMAP_AUTH_SUCCESS ∧
    wireEvents (imap_auth_plain env).events = [Event.cmd_start auth_plain_cmd] := by
  rw [imap_auth_plain_main env hu hp]
  have hrun : runSteps IMAP_CMD_CONTINUE env.steps = (IMAP_CMD_OK, rest) := by
    rw [hsteps]
    exact runSteps_replicate (by decide) 0 rest
  have hpre : prePhase env = (IMAP_CMD_OK, rest,
      [Event.cmd_start (cstr ((mutt_sasl_plain_msg auth_plain_cmd env.payload).set 18 0))]) := by
    unfold prePhase
    rw [hs, if_neg (by simp), hrun,
      if_neg (by simp : ¬(IMAP_CMD_OK, rest).1 = IMAP_CMD_RESPOND)]
  constructor
  · unfold authMain
    dsimp only
    rw [hpre]
    dsimp only
    rw [runSteps_stop (by decide : ¬IMAP_CMD_OK = IMAP_CMD_CONTINUE)]
    rfl
  · rw [authMain_wire env, hpre, cstr_set18]

/-- **C10, witness**: immediate `IMAP_CMD_OK` after the keyword yields
    success and a single wire message. -/
theorem claim_C10_witness :
    (imap_auth_plain ⟨true, true, false, [97], [IMAP_CMD_OK]⟩).res
      = IMAP_AUTH_SUCCESS ∧
    wireEvents (imap_auth_plain ⟨true, true, false, [97], [IMAP_CMD_OK]⟩).events
      = [Event.cmd_start auth_plain_cmd] :=
  claim_C10 ⟨true, true, false, [97], [IMAP_CMD_OK]⟩ rfl rfl rfl [] rfl

/-- **C3, counterexample**: constructing a buffer from the non-empty seed
    `"abc"` leaves `cursor = 3 = dsize`: the cursor exceeds
    `capacity - 1`, because the `dsize` field records the seed length
    without the terminator byte (which `strdup` stores one past it). -/
theorem claim_C3_counterexample :
    (mutt_buffer_from [97, 98, 99]).dptr = 3 ∧
    (mutt_buffer_from [97, 98, 99]).dsize = 3 ∧
    ¬((mutt_buffer_from [97, 98, 99]).dptr
        ≤ (mutt_buffer_from [97, 98, 99]).dsize - 1) := by
  decide

/-- **C3** (amended): after the append operations (bytes, string, char)
    and after format, the byte at the cursor is the terminator and
    `cursor + 1 ≤ dsize`.  After construct-from-seed the byte at the
    cursor is still the terminator (the `strdup` copy holds it one past
    the capacity field) but the cursor equals `dsize`, not `dsize - 1`.
    The empty constructor has no storage at all (capacity and cursor 0).
    The (spec-modelled) truncate restores the terminator at the new
    cursor, and keeps `cursor + 1 ≤ dsize` exactly when the truncation
    offset is below `dsize`. -/
theorem claim_C3 :
    (mutt_buffer_init.data = [] ∧ mutt_buffer_init.dptr = 0 ∧
      mutt_buffer_init.dsize = 0) ∧
    (∀ seed, (mutt_buffer_from seed).data[(mutt_buffer_from seed).dptr]? = some 0 ∧
      (mutt_buffer_from seed).dptr = (mutt_buffer_from seed).dsize) ∧
    (∀ b s len, Reach b → len ≤ s.length → BufInv (mutt_buffer_add_core b s len)) ∧
    (∀ b s, Reach b → BufInv (mutt_buffer_addstr_core b s)) ∧
    (∀ b c, Reach b → BufInv (mutt_buffer_addch_core b c)) ∧
    (∀ b out, Reach b → BufInv (mutt_buffer_printf b out).1) ∧
    (∀ b off, off < b.data.length →
      (mutt_buffer_truncate b off).data[(mutt_buffer_truncate b off).dptr]? = some 0 ∧
      (off + 1 ≤ b.dsize → BufInv (mutt_buffer_truncate b off))) := by
  refine ⟨⟨rfl, rfl, rfl⟩, ?_, ?_, ?_, ?_, ?_, ?_⟩
  · intro seed
    refine ⟨?_, rfl⟩
    unfold mutt_buffer_from safe_strdup mutt_strlen
    dsimp only
    exact append_zero_getElem _
  · intro b s len hR hs
    exact (add_core_inv b s len hR.1 hR.2 hs).1
  · intro b s hR
    unfold mutt_buffer_addstr_core
    exact (add_core_inv b s (mutt_strlen s) hR.1 hR.2 (cstr_length_le s)).1
  · intro b c hR
    unfold mutt_buffer_addch_core
    exact (add_core_inv b [c] 1 hR.1 hR.2 (by simp)).1
  · intro b out hR
    exact printf_inv b out hR.1 hR.2
  · intro b off hoff
    exact ⟨truncate_nul b off hoff, fun hlt => ⟨truncate_nul b off hoff, hlt⟩⟩

/-- **C3, witness**: appending one byte to the buffer built from `"abc"`
    restores the invariant. -/
theorem claim_C3_witness :
    BufInv (mutt_buffer_add_core (mutt_buffer_from [97, 98, 99]) [100] 1) :=
  claim_C3.2.2.1 (mutt_buffer_from [97, 98, 99]) [100] 1
    ⟨by decide, by decide⟩ (by decide)

/-- **C7, counterexample**: after filling a fresh buffer with 126 bytes
    (`dsize = 128`, cursor 126, one byte of room), appending 200 bytes
    grows `dsize` to 329 = 128 + (200 + 1); the claimed formula
    `max(128, length + 1 - remaining) = max(128, 200) = 200` predicts
    328 — the code never subtracts the remaining room. -/
theorem claim_C7_counterexample :
    (mutt_buffer_add_core mutt_buffer_init (List.replicate 126 97) 126).dsize
        < (mutt_buffer_add_core mutt_buffer_init (List.replicate 126 97) 126).dptr
          + 200 + 1 ∧
    (mutt_buffer_add_core (mutt_buffer_add_core mutt_buffer_init
        (List.replicate 126 97) 126) (List.replicate 200 97) 200).dsize = 329 ∧
    ¬((mutt_buffer_add_core (mutt_buffer_add_core mutt_buffer_init
          (List.replicate 126 97) 126) (List.replicate 200 97) 200).dsize
        = (mutt_buffer_add_core mutt_buffer_init (List.replicate 126 97) 126).dsize
          + max 128 (200 + 1 -
              ((mutt_buffer_add_core mutt_buffer_init (List.replicate 126 97) 126).dsize
                - (mutt_buffer_add_core mutt_buffer_init (List.replicate 126 97) 126).dptr
                - 1))) := by
  refine ⟨by decide, rfl, by decide⟩

/-- **C7** (amended): capacity never decreases across an append; when the
    write does not fit (`dptr + len + 1 > dsize`) capacity grows by
    exactly `max 128 (len + 1)` — the larger of 128 bytes or the whole
    write plus terminator, independent of the remaining room — and all
    previously written bytes are preserved. -/
theorem claim_C7 :
    (∀ b s len, b.dsize ≤ (mutt_buffer_add_core b s len).dsize) ∧
    (∀ b s len, b.dsize < b.dptr + len + 1 →
      (mutt_buffer_add_core b s len).dsize = b.dsize + max 128 (len + 1)) ∧
    (∀ b s len i, Reach b → i < b.dptr →
      (mutt_buffer_add_core b s len).data[i]? = b.data[i]?) :=
  ⟨fun b s len => add_core_dsize_mono b s len,
   fun b s len h => add_core_dsize_growth b s len h,
   fun b s len i hR hi => add_core_preserve b s len hR.1 hR.2 i hi⟩

/-- **C7, witness**: a 130-byte append to the 3-byte buffer from `"abc"`
    grows `dsize` by `max 128 131 = 131` and preserves byte 0. -/
theorem claim_C7_witness :
    (mutt_buffer_add_core (mutt_buffer_from [97, 98, 99])
        (List.replicate 130 100) 130).dsize
      = (mutt_buffer_from [97, 98, 99]).dsize + max 128 131 ∧
    (mutt_buffer_add_core (mutt_buffer_from [97, 98, 99])
        (List.replicate 130 100) 130).data[0]?
      = (mutt_buffer_from [97, 98, 99]).data[0]? :=
  ⟨claim_C7.2.1 (mutt_buffer_from [97, 98, 99]) (List.replicate 130 100) 130
      (by decide),
   claim_C7.2.2 (mutt_buffer_from [97, 98, 99]) (List.replicate 130 100) 130 0
      ⟨by decide, by decide⟩ (by decide)⟩

/-- **C8**: truncating the array holding `AUTHENTICATE PLAIN <payload>`
    in place at the keyword length (`buf[18] = 0`, overwriting the
    separating space) makes the readable C string exactly
    `AUTHENTICATE PLAIN`, leaves every byte beyond the new terminator
    unchanged, and the suffix at offset 19 is still exactly the payload
    the driver later sends as the continuation response. -/
theorem claim_C8 (payload : List Nat) :
    cstr ((mutt_sasl_plain_msg auth_plain_cmd payload).set 18 0) = auth_plain_cmd ∧
    ((mutt_sasl_plain_msg auth_plain_cmd payload).set 18 0).drop 19
      = (mutt_sasl_plain_msg auth_plain_cmd payload).drop 19 ∧
    ((mutt_sasl_plain_msg auth_plain_cmd payload).set 18 0).drop 19 = payload :=
  ⟨cstr_set18 payload, rfl, drop19_set18 payload⟩

/-- **C9, counterexample**: an append of length zero (empty data, valid
    pointer) to a freshly constructed empty buffer is not a no-op: it
    grows the capacity from 0 to 128 and allocates storage. -/
theorem claim_C9_counterexample :
    mutt_buffer_add (some mutt_buffer_init) (some ([] : List Nat)) 0
      ≠ some mutt_buffer_init ∧
    (mutt_buffer_add_core mutt_buffer_init [] 0).dsize = 128 := by
  decide

/-- **C9** (amended): the byte-append is a no-op when the buffer handle
    is NULL or the data pointer is NULL (the code tests pointer NULL-ness,
    not emptiness of the data); an append of length zero with a valid
    data pointer is a no-op only on a buffer that already has room and a
    terminator at the cursor — on a fresh zero-capacity buffer it instead
    grows the capacity to 128 (the cursor stays 0). -/
theorem claim_C9 :
    (∀ s len, mutt_buffer_add none s len = none) ∧
    (∀ b len, mutt_buffer_add (some b) none len = some b) ∧
    (∀ b s, b.data[b.dptr]? = some 0 → b.dptr + 1 ≤ b.dsize →
      mutt_buffer_add (some b) (some s) 0 = some b) ∧
    ((mutt_buffer_add_core mutt_buffer_init [] 0).dsize = 128 ∧
     (mutt_buffer_add_core mutt_buffer_init [] 0).dptr = 0) := by
  refine ⟨fun s len => rfl, fun b len => rfl, ?_, by decide⟩
  intro b s h0 hroom
  have hcore : mutt_buffer_add_core b s 0 = b := by
    unfold mutt_buffer_add_core buffer_grow
    rw [if_neg (by omega : ¬b.dptr + 0 + 1 > b.dsize)]
    have hne : b.data ≠ [] := by
      intro he
      rw [he] at h0
      simp at h0
    rw [if_neg hne]
    have hs0 : s.take 0 ++ [0] = [0] := rfl
    rw [hs0, set_at_getElem_self h0]
    cases b
    rfl
  show some (mutt_buffer_add_core b s 0) = some b
  rw [hcore]

set_option maxRecDepth 4000 in
/-- **C9, witness**: a zero-length append to the already-grown buffer
    (room and terminator present) is a genuine no-op. -/
theorem claim_C9_witness :
    mutt_buffer_add (some (mutt_buffer_add_core mutt_buffer_init [] 0))
        (some [97]) 0
      = some (mutt_buffer_add_core mutt_buffer_init [] 0) :=
  claim_C9.2.2.1 (mutt_buffer_add_core mutt_buffer_init [] 0) [97]
    (by decide) (by decide)

end NeomuttSpec
